import Mathlib

/-
Shallow embedding of quadfeather's ingestion layer (src/quadfeather/ingester.py).

The repository's core is the Ingester class hierarchy: a byte-budgeted batch
accumulator (Ingester.__iter__), three format-specific batch producers
(ArrowIngester.batches, FeatherIngester.batches, ParquetIngester.batches) and
the dispatcher get_ingester.  pyarrow record batches are modelled as abstract
batches carrying a schema (column-name list), row data and a byte size; the
file system is modelled as the list of paths that currently exist.
-/

namespace Quadfeather

/-- Model of a pyarrow RecordBatch: a fixed-schema chunk of rows.  The schema
is the ordered list of column names, rows are opaque tuples of cell values,
and nbytes is the batch's in-memory byte size (the value of batch.nbytes read
by Ingester.__iter__). -/
structure RawBatch where
  schema : List String
  rows : List (List Nat)
  nbytes : Nat
deriving DecidableEq

/-- Model of a pyarrow Table as produced by pa.Table.from_batches(...).combine_chunks():
the schema of the first batch, all rows in arrival order, and the accumulated
byte size of the combined batches. -/
structure CombinedTable where
  schema : List String
  rows : List (List Nat)
  nbytes : Nat
deriving DecidableEq

/-- Model of pa.Table.from_batches(batches=queue) followed by combine_chunks():
pyarrow takes the schema from the first batch, concatenates all rows in order,
and combine_chunks preserves both schema and row order. -/
def tableFromBatches (queue : List RawBatch) : CombinedTable where
  schema := (queue.head?.map RawBatch.schema).getD []
  rows := (queue.map RawBatch.rows).flatten
  nbytes := (queue.map RawBatch.nbytes).sum

/-- Total byte size of a list of buffered batches. -/
def sumBytes (queue : List RawBatch) : Nat :=
  (queue.map RawBatch.nbytes).sum

/-- A source file: its on-disk path and the record batches stored in it, in
the file's native batch order. -/
structure SrcFile where
  path : String
  content : List RawBatch
deriving DecidableEq

/-- The raw-batch sequence produced by Ingester.batches() over a file list:
each file's native batches in order, files in input order (this is the common
yield order of all three batches() implementations). -/
def batchesOf (files : List SrcFile) : List RawBatch :=
  (files.map SrcFile.content).flatten

/-- The tables yielded by Ingester.__iter__, given the stream of raw batches
produced by self.batches(), the current self.queue and the current local
queue_length.  Faithful to lines 24-36 of ingester.py: append the batch to
self.queue, add batch.nbytes to queue_length, flush when
queue_length > self.batch_size (clearing queue and counter), and after the
loop flush once more when self.queue is non-empty. -/
def iterTables (bs : Nat) : List RawBatch → List RawBatch → Nat → List CombinedTable
  | [], queue, _ =>
      if 0 < queue.length then [tableFromBatches queue] else []
  | b :: rest, queue, qlen =>
      if bs < qlen + b.nbytes then
        tableFromBatches (queue ++ [b]) :: iterTables bs rest [] 0
      else
        iterTables bs rest (queue ++ [b]) (qlen + b.nbytes)

/-- The value of self.queue after Ingester.__iter__ has run to completion.
The in-loop flush executes self.queue = [] (line 32), but the final flush at
lines 34-36 only yields the table and never resets self.queue, so the residual
batches stay in the attribute. -/
def iterFinal (bs : Nat) : List RawBatch → List RawBatch → Nat → List RawBatch
  | [], queue, _ => queue
  | b :: rest, queue, qlen =>
      if bs < qlen + b.nbytes then iterFinal bs rest [] 0
      else iterFinal bs rest (queue ++ [b]) (qlen + b.nbytes)

/-- The trace of (self.queue, queue_length) pairs observed during
Ingester.__iter__: one observation right after each append/counter update
(lines 27-28), one right after each in-loop flush reset (lines 32-33), and one
when the batch stream is exhausted. -/
def iterStates (bs : Nat) : List RawBatch → List RawBatch → Nat → List (List RawBatch × Nat)
  | [], queue, qlen => [(queue, qlen)]
  | b :: rest, queue, qlen =>
      if bs < qlen + b.nbytes then
        (queue ++ [b], qlen + b.nbytes) :: ([], 0) :: iterStates bs rest [] 0
      else
        (queue ++ [b], qlen + b.nbytes) :: iterStates bs rest (queue ++ [b]) (qlen + b.nbytes)

/-- Ingester.__iter__ as observed by the caller: self.queue starts empty
(set in __init__) and queue_length starts at 0. -/
def iterOut (bs : Nat) (input : List RawBatch) : List CombinedTable :=
  iterTables bs input [] 0

/-- The value of self.queue after a full iteration that started with an empty
queue. -/
def iterFinalQueue (bs : Nat) (input : List RawBatch) : List RawBatch :=
  iterFinal bs input [] 0

/-- The file system, modelled as the list of paths that currently exist. -/
abbrev FS := List String

/-- Runtime error raised inside a batches() generator. -/
inductive ReadErr
  /-- Python AttributeError: .unlink() called on an object with no such
  attribute (a pyarrow Table or ParquetFile instead of a pathlib.Path). -/
  | attributeError
deriving DecidableEq

/-- Outcome of running one batches() generator to completion or to its first
raised error: the batches it yielded, the resulting file system, and the
error (if any) that terminated it. -/
structure BatchesResult where
  yielded : List RawBatch
  fs : FS
  err : Option ReadErr
deriving DecidableEq

/-- ArrowIngester.batches (ingester.py lines 46-56): for each file, yield its
record batches in order; afterwards, if destructive, call file.unlink() on the
pathlib.Path, which removes the file from storage. -/
def ArrowIngester.batches (destructive : Bool) : List SrcFile → FS → BatchesResult
  | [], fs => ⟨[], fs, none⟩
  | f :: rest, fs =>
      let fs2 := if destructive then fs.erase f.path else fs
      let r := ArrowIngester.batches destructive rest fs2
      ⟨f.content ++ r.yielded, r.fs, r.err⟩

/-- FeatherIngester.batches (ingester.py lines 69-75): fin is the pyarrow
Table returned by feather.read_table, its batches are yielded in order, and
then, if destructive, the code calls fin.unlink() — but a pyarrow Table has no
unlink method, so this raises AttributeError after the first file's batches
and never touches the file system. -/
def FeatherIngester.batches (destructive : Bool) : List SrcFile → FS → BatchesResult
  | [], fs => ⟨[], fs, none⟩
  | f :: rest, fs =>
      if destructive then
        ⟨f.content, fs, some ReadErr.attributeError⟩
      else
        let r := FeatherIngester.batches destructive rest fs
        ⟨f.content ++ r.yielded, r.fs, r.err⟩

/-- ParquetIngester.batches (ingester.py lines 83-89): the loop variable f is
rebound to pq.ParquetFile(f), so the destructive branch calls f.unlink() on a
ParquetFile object, which has no unlink method — AttributeError after the
first file's batches, and the file system is never touched. -/
def ParquetIngester.batches (destructive : Bool) : List SrcFile → FS → BatchesResult
  | [], fs => ⟨[], fs, none⟩
  | f :: rest, fs =>
      if destructive then
        ⟨f.content, fs, some ReadErr.attributeError⟩
      else
        let r := ParquetIngester.batches destructive rest fs
        ⟨f.content ++ r.yielded, r.fs, r.err⟩

/-- Model of pathlib.Path as used by get_ingester: only the stem and the
suffix (final extension, empty when there is none) matter to the dispatcher. -/
structure Path where
  stem : String
  suffix : String
deriving DecidableEq

/-- The three Ingester subclasses get_ingester can return. -/
inductive IngKind
  | parquet
  | feather
  | arrow
deriving DecidableEq

/-- The constructed Ingester as configured by get_ingester: its concrete
class, self.files, self.columns and self.destructive exactly as passed to
the constructor (batch_size keeps its default). -/
structure IngesterCfg where
  kind : IngKind
  files : List Path
  columns : Option (List String)
  destructive : Bool
deriving DecidableEq

/-- Dispatcher-level failure: the assert on line 102 of ingester.py (Python
AssertionError with the given message), or the raise on line 112 for an
unsupported suffix. -/
inductive DispatchErr
  | assertionError (msg : String)
  | unsupportedFileType (suffix : String)
deriving DecidableEq

/-- get_ingester (ingester.py lines 92-112): dedupe the suffixes of the input
files, assert there is exactly one, then dispatch on it.  The files list,
columns and destructive flag are forwarded unchanged to the chosen class. -/
def get_ingester (files : List Path) (destructive : Bool)
    (columns : Option (List String)) : Except DispatchErr IngesterCfg :=
  let suffixes := (files.map Path.suffix).dedup
  if suffixes.length = 1 then
    let suffix := suffixes.headI
    if suffix = ".parquet" then
      Except.ok ⟨IngKind.parquet, files, columns, destructive⟩
    else if suffix = ".feather" then
      Except.ok ⟨IngKind.feather, files, columns, destructive⟩
    else if suffix = ".arrow" then
      Except.ok ⟨IngKind.arrow, files, columns, destructive⟩
    else
      Except.error (DispatchErr.unsupportedFileType suffix)
  else
    Except.error (DispatchErr.assertionError "All files must be of the same type")

/-- The suffix-to-class mapping implemented by the dispatch chain of
get_ingester, used to state the dispatch claim. -/
def kindOfSuffix (s : String) : Option IngKind :=
  if s = ".parquet" then some IngKind.parquet
  else if s = ".feather" then some IngKind.feather
  else if s = ".arrow" then some IngKind.arrow
  else none

/-- Concrete five-byte batch used in concrete evaluations. -/
def batch5 : RawBatch := ⟨["x"], [[0]], 5⟩

/-- Concrete eight-byte batch used in the destructive-mode evaluation. -/
def sampleBatch : RawBatch := ⟨["x"], [[1], [2]], 8⟩

/-! Helper lemmas about the accumulator loop. -/

/-- Rows are preserved: flattening the rows of all yielded tables equals the
buffered rows followed by the rows of the remaining input batches. -/
lemma iterTables_rows (bs : Nat) :
    ∀ (input queue : List RawBatch) (qlen : Nat),
      ((iterTables bs input queue qlen).map CombinedTable.rows).flatten
        = (queue.map RawBatch.rows).flatten ++ (input.map RawBatch.rows).flatten := by
  intro input
  induction input with
  | nil =>
      intro queue qlen
      by_cases h : 0 < queue.length
      · simp [iterTables, h, tableFromBatches]
      · have hq : queue = [] := by
          cases queue with
          | nil => rfl
          | cons a tl => simp at h
        subst hq
        simp [iterTables]
  | cons b rest ih =>
      intro queue qlen
      by_cases h : bs < qlen + b.nbytes
      · simp [iterTables, h, tableFromBatches, ih]
      · simp [iterTables, h, ih]

/-- The byte counter always equals the summed nbytes of the buffered batches,
at every observation point of the loop. -/
lemma iterStates_inv (bs : Nat) :
    ∀ (input queue : List RawBatch) (qlen : Nat), qlen = sumBytes queue →
      ∀ s ∈ iterStates bs input queue qlen, s.2 = sumBytes s.1 := by
  intro input
  induction input with
  | nil =>
      intro queue qlen hq s hs
      simp [iterStates] at hs
      subst hs
      exact hq
  | cons b rest ih =>
      intro queue qlen hq s hs
      have hq2 : qlen + b.nbytes = sumBytes (queue ++ [b]) := by
        simp [sumBytes, hq]
      by_cases h : bs < qlen + b.nbytes
      · simp only [iterStates, if_pos h, List.mem_cons] at hs
        rcases hs with hs | hs | hs
        · subst hs; exact hq2
        · subst hs; rfl
        · exact ih [] 0 rfl s hs
      · simp only [iterStates, if_neg h, List.mem_cons] at hs
        rcases hs with hs | hs
        · subst hs; exact hq2
        · exact ih (queue ++ [b]) (qlen + b.nbytes) hq2 s hs

/-- Every yielded table except possibly the last was flushed because the
accumulated byte size strictly exceeded the budget. -/
lemma iterTables_dropLast (bs : Nat) :
    ∀ (input queue : List RawBatch) (qlen : Nat), qlen = sumBytes queue →
      ∀ t ∈ (iterTables bs input queue qlen).dropLast, bs < t.nbytes := by
  intro input
  induction input with
  | nil =>
      intro queue qlen _ t ht
      by_cases h : 0 < queue.length <;> simp [iterTables, h] at ht
  | cons b rest ih =>
      intro queue qlen hq t ht
      by_cases h : bs < qlen + b.nbytes
      · simp only [iterTables, if_pos h] at ht
        rcases hrest : iterTables bs rest [] 0 with _ | ⟨y, ys⟩
        · rw [hrest] at ht; simp at ht
        · rw [hrest] at ht
          have hdl : (tableFromBatches (queue ++ [b]) :: y :: ys).dropLast
              = tableFromBatches (queue ++ [b]) :: (y :: ys).dropLast := rfl
          rw [hdl] at ht
          rcases List.mem_cons.mp ht with hh | hh
          · subst hh
            have hnb : (tableFromBatches (queue ++ [b])).nbytes
                = sumBytes (queue ++ [b]) := rfl
            have hs : sumBytes (queue ++ [b]) = sumBytes queue + b.nbytes := by
              simp [sumBytes]
            rw [hnb, hs]
            omega
          · have hmem : t ∈ (iterTables bs rest [] 0).dropLast := by
              rw [hrest]; exact hh
            exact ih [] 0 rfl t hmem
      · simp only [iterTables, if_neg h] at ht
        exact ih (queue ++ [b]) (qlen + b.nbytes) (by simp [sumBytes, hq]) t ht

/-- When every batch in the buffer and in the input stream carries the same
schema, every yielded table carries that schema. -/
lemma iterTables_schema (bs : Nat) (cols : List String) :
    ∀ (input queue : List RawBatch) (qlen : Nat),
      (∀ x ∈ queue, x.schema = cols) → (∀ x ∈ input, x.schema = cols) →
      ∀ t ∈ iterTables bs input queue qlen, t.schema = cols := by
  intro input
  induction input with
  | nil =>
      intro queue qlen hqc _ t ht
      cases queue with
      | nil => simp [iterTables] at ht
      | cons a tl =>
          simp [iterTables] at ht
          subst ht
          simpa [tableFromBatches] using hqc a (by simp)
  | cons b rest ih =>
      intro queue qlen hqc hic t ht
      have hq2 : ∀ x ∈ queue ++ [b], x.schema = cols := by
        intro x hx
        rcases List.mem_append.mp hx with hx | hx
        · exact hqc x hx
        · rw [List.mem_singleton] at hx; rw [hx]; exact hic b (by simp)
      have hic2 : ∀ x ∈ rest, x.schema = cols := fun x hx => hic x (by simp [hx])
      by_cases h : bs < qlen + b.nbytes
      · simp only [iterTables, if_pos h, List.mem_cons] at ht
        rcases ht with hh | hh
        · subst hh
          cases hq : queue ++ [b] with
          | nil => simp at hq
          | cons a tl =>
              have ha : a.schema = cols := hq2 a (by rw [hq]; simp)
              simpa [tableFromBatches] using ha
        · exact ih [] 0 (by simp) hic2 t hh
      · simp only [iterTables, if_neg h] at ht
        exact ih (queue ++ [b]) (qlen + b.nbytes) hq2 hic2 t ht

/-- Dedup of a non-empty constant list is the singleton of that constant. -/
lemma dedup_of_all_eq {l : List String} {s : String} (hne : l ≠ [])
    (hall : ∀ x ∈ l, x = s) : l.dedup = [s] := by
  induction l with
  | nil => cases hne rfl
  | cons a tl ih =>
      have ha : a = s := hall a (by simp)
      cases tl with
      | nil => simp [ha]
      | cons c tl2 =>
          have htl : (c :: tl2).dedup = [s] :=
            ih (by simp) (fun x hx => hall x (by simp [hx]))
          have hmem : a ∈ c :: tl2 := by
            have hc : c = s := hall c (by simp)
            simp [ha, hc]
          rw [List.dedup_cons_of_mem hmem, htl]

/-! Claim theorems. -/

/-- C1: concatenating the rows of all CombinedTable values yielded by
Ingester.__iter__, in emission order, equals the concatenation of the rows of
the raw batches produced by batches() (input file order, native batch order
within each file): no reordering, no duplication, no loss.  The column
projection only determines the content of the source batches, which are
universally quantified here through the file contents. -/
theorem c1_roundtrip_row_order (bs : Nat) (files : List SrcFile) :
    ((iterOut bs (batchesOf files)).map CombinedTable.rows).flatten
      = ((batchesOf files).map RawBatch.rows).flatten := by
  simpa using iterTables_rows bs (batchesOf files) [] 0

/-- C2: for every byte budget B > 0, every table yielded by Ingester.__iter__
except possibly the last had accumulated byte size at least B at the moment it
was flushed (the append-then-check test is queue_length > batch_size, so the
bound even holds strictly); the last table may be smaller than B, and a single
oversized batch can push a table past any bound. -/
theorem c2_budget_lower_bound (bs : Nat) (hbs : 0 < bs) :
    (∀ input : List RawBatch, ∀ t ∈ (iterOut bs input).dropLast, bs ≤ t.nbytes) ∧
    (∃ input : List RawBatch,
        (iterOut bs input).length = 1 ∧ ∀ t ∈ iterOut bs input, t.nbytes < bs) ∧
    (∀ m : Nat, ∃ input : List RawBatch, ∃ t ∈ iterOut bs input, m ≤ t.nbytes) := by
  refine ⟨?_, ?_, ?_⟩
  · intro input t ht
    exact Nat.le_of_lt (iterTables_dropLast bs input [] 0 rfl t ht)
  · refine ⟨[⟨[], [], 0⟩], ?_, ?_⟩
    · simp [iterOut, iterTables]
    · intro t ht
      simp [iterOut, iterTables] at ht
      subst ht
      simpa [tableFromBatches] using hbs
  · intro m
    have hcond : bs < bs + m + 1 := by omega
    refine ⟨[⟨[], [], bs + m + 1⟩], tableFromBatches [⟨[], [], bs + m + 1⟩], ?_, ?_⟩
    · simp [iterOut, iterTables, hcond]
    · simp [tableFromBatches]
      omega

/-- Witness for C2 at the concrete budget 1. -/
theorem c2_budget_lower_bound_witness :
    (∀ input : List RawBatch, ∀ t ∈ (iterOut 1 input).dropLast, 1 ≤ t.nbytes) ∧
    (∃ input : List RawBatch,
        (iterOut 1 input).length = 1 ∧ ∀ t ∈ iterOut 1 input, t.nbytes < 1) ∧
    (∀ m : Nat, ∃ input : List RawBatch, ∃ t ∈ iterOut 1 input, m ≤ t.nbytes) :=
  c2_budget_lower_bound 1 (by decide)

/-- C3 evaluation at the failing input: with destructive mode on and a single
source file, the feather and parquet variants raise AttributeError (unlink is
called on the pyarrow Table, resp. the ParquetFile, instead of the path) and
the file is still present afterwards, while the arrow variant deletes its file
after yielding all of its batches. -/
theorem c3_destructive_divergence :
    (FeatherIngester.batches true [⟨"a.feather", [sampleBatch]⟩] ["a.feather"]
        = ⟨[sampleBatch], ["a.feather"], some ReadErr.attributeError⟩) ∧
    (ParquetIngester.batches true [⟨"a.parquet", [sampleBatch]⟩] ["a.parquet"]
        = ⟨[sampleBatch], ["a.parquet"], some ReadErr.attributeError⟩) ∧
    (ArrowIngester.batches true [⟨"a.arrow", [sampleBatch]⟩] ["a.arrow"]
        = ⟨[sampleBatch], [], none⟩) := by
  refine ⟨rfl, rfl, by decide⟩

/-- C4 (amended): at every observation point of Ingester.__iter__ the running
counter queue_length equals the summed nbytes of self.queue, and each in-loop
flush resets both to empty and zero; the final flush after source exhaustion,
however, yields the residual table without clearing self.queue (lines 34-36
never reassign it), so the buffer keeps the residual batches afterwards. -/
theorem c4_buffer_counter_invariant (bs : Nat) (input : List RawBatch) :
    (∀ s ∈ iterStates bs input [] 0, s.2 = sumBytes s.1) ∧
    (∀ (queue : List RawBatch) (qlen : Nat), iterFinal bs [] queue qlen = queue) :=
  ⟨iterStates_inv bs input [] 0 rfl, fun _ _ => rfl⟩

/-- C4 counterexample: one 5-byte batch under a 10-byte budget is emitted by
the final flush, and afterwards self.queue still holds that batch — the claim
that every flush clears the buffer, leaving it empty after a completed
iteration, is false. -/
theorem c4_final_queue_not_cleared : iterFinalQueue 10 [batch5] ≠ [] := by
  decide

/-- Witness for C4 at budget 10 and the single batch batch5. -/
theorem c4_buffer_counter_invariant_witness :
    (([batch5], 5) : List RawBatch × Nat).2 = sumBytes [batch5] ∧
    iterFinal 10 [] [batch5] 5 = [batch5] :=
  ⟨(c4_buffer_counter_invariant 10 [batch5]).1 ([batch5], 5) (by decide),
   (c4_buffer_counter_invariant 10 [batch5]).2 [batch5] 5⟩

/-- C5: when the format readers honour the column-projection contract — every
raw batch they yield carries exactly the requested non-empty column list cols
as its schema, which is how the pyarrow column-restricted readers behave for
all three variants — every emitted CombinedTable has schema exactly cols: all
requested columns, in a stable order, and no others. -/
theorem c5_projection_schema (bs : Nat) (cols : List String) (input : List RawBatch)
    (_hcols : cols ≠ []) (hall : ∀ b ∈ input, b.schema = cols) :
    ∀ t ∈ iterOut bs input, t.schema = cols :=
  iterTables_schema bs cols input [] 0 (by intro x hx; cases hx) hall

/-- Witness for C5 on one single-column batch. -/
theorem c5_projection_schema_witness :
    (tableFromBatches [⟨["a"], [[1]], 4⟩]).schema = ["a"] :=
  c5_projection_schema 10 ["a"] [⟨["a"], [[1]], 4⟩] (by decide) (by decide)
    (tableFromBatches [⟨["a"], [[1]], 4⟩]) (by decide)

/-- C6: as soon as two input files carry distinct suffixes, get_ingester
fails with the AssertionError of line 102 of ingester.py.  The dispatcher
only inspects path suffixes — the embedding takes no file contents at all —
so the failure happens before any file is opened or any byte is read, and no
output is produced. -/
theorem c6_mixed_formats_assert (files : List Path) (d : Bool)
    (c : Option (List String)) (f1 f2 : Path) (h1 : f1 ∈ files) (h2 : f2 ∈ files)
    (hne : f1.suffix ≠ f2.suffix) :
    get_ingester files d c
      = Except.error (DispatchErr.assertionError "All files must be of the same type") := by
  have hlen : ((files.map Path.suffix).dedup).length ≠ 1 := by
    intro hl
    obtain ⟨x, hx⟩ := List.length_eq_one.mp hl
    have m1 : f1.suffix ∈ (files.map Path.suffix).dedup :=
      List.mem_dedup.mpr (List.mem_map_of_mem Path.suffix h1)
    have m2 : f2.suffix ∈ (files.map Path.suffix).dedup :=
      List.mem_dedup.mpr (List.mem_map_of_mem Path.suffix h2)
    rw [hx] at m1 m2
    exact hne ((List.mem_singleton.mp m1).trans (List.mem_singleton.mp m2).symm)
  simp only [get_ingester]
  rw [if_neg hlen]

/-- Witness for C6 on one parquet path and one feather path. -/
theorem c6_mixed_formats_assert_witness :
    get_ingester [⟨"a", ".parquet"⟩, ⟨"b", ".feather"⟩] false none
      = Except.error (DispatchErr.assertionError "All files must be of the same type") :=
  c6_mixed_formats_assert _ false none ⟨"a", ".parquet"⟩ ⟨"b", ".feather"⟩
    (by decide) (by decide) (by decide)

/-- C7: a non-empty file list sharing one suffix that is none of .parquet,
.feather or .arrow makes get_ingester raise the unsupported-file-type error of
line 112 of ingester.py, returning no ingester. -/
theorem c7_unsupported_suffix (files : List Path) (d : Bool)
    (c : Option (List String)) (s : String) (hne : files ≠ [])
    (hall : ∀ f ∈ files, f.suffix = s) (hp : s ≠ ".parquet")
    (hf : s ≠ ".feather") (ha : s ≠ ".arrow") :
    get_ingester files d c = Except.error (DispatchErr.unsupportedFileType s) := by
  have hd : (files.map Path.suffix).dedup = [s] := by
    refine dedup_of_all_eq (by simpa using hne) ?_
    intro x hx
    obtain ⟨f, hf2, rfl⟩ := List.mem_map.mp hx
    exact hall f hf2
  simp only [get_ingester, hd]
  simp [hp, hf, ha]

/-- Witness for C7 on a single .csv path. -/
theorem c7_unsupported_suffix_witness :
    get_ingester [⟨"a", ".csv"⟩] false none
      = Except.error (DispatchErr.unsupportedFileType ".csv") :=
  c7_unsupported_suffix _ false none ".csv" (by decide) (by decide)
    (by decide) (by decide) (by decide)

/-- C8: a non-empty file list sharing one supported suffix makes get_ingester
return the class matching that suffix (.parquet, .feather, .arrow in the
dispatch chain), constructed with the files in the caller's order and the
columns and destructive arguments forwarded unchanged. -/
theorem c8_dispatch_forwarding (files : List Path) (d : Bool)
    (c : Option (List String)) (s : String) (k : IngKind) (hne : files ≠ [])
    (hall : ∀ f ∈ files, f.suffix = s) (hk : kindOfSuffix s = some k) :
    get_ingester files d c = Except.ok ⟨k, files, c, d⟩ := by
  have hd : (files.map Path.suffix).dedup = [s] := by
    refine dedup_of_all_eq (by simpa using hne) ?_
    intro x hx
    obtain ⟨f, hf2, rfl⟩ := List.mem_map.mp hx
    exact hall f hf2
  by_cases hp : s = ".parquet"
  · subst hp
    obtain rfl : IngKind.parquet = k :=
      Option.some.inj ((show kindOfSuffix ".parquet" = some IngKind.parquet from rfl) ▸ hk)
    simp [get_ingester, hd]
  · by_cases hfe : s = ".feather"
    · subst hfe
      obtain rfl : IngKind.feather = k :=
        Option.some.inj ((show kindOfSuffix ".feather" = some IngKind.feather from rfl) ▸ hk)
      simp [get_ingester, hd]
    · by_cases har : s = ".arrow"
      · subst har
        obtain rfl : IngKind.arrow = k :=
          Option.some.inj ((show kindOfSuffix ".arrow" = some IngKind.arrow from rfl) ▸ hk)
        simp [get_ingester, hd]
      · exact absurd hk (by simp [kindOfSuffix, hp, hfe, har])

/-- Witness for C8 on a single .parquet path with columns and destructive
set. -/
theorem c8_dispatch_forwarding_witness :
    get_ingester [⟨"a", ".parquet"⟩] true (some ["x"])
      = Except.ok ⟨IngKind.parquet, [⟨"a", ".parquet"⟩], some ["x"], true⟩ :=
  c8_dispatch_forwarding _ true (some ["x"]) ".parquet" IngKind.parquet
    (by decide) (by decide) rfl

/-- C9: when the source files contribute zero raw batches in total — for
example a single empty file — Ingester.__iter__ yields nothing at all: the
loop body never runs and the final flush is guarded by a non-empty queue, so
there is no empty trailing table and no error. -/
theorem c9_zero_batches_empty_output (bs : Nat) (files : List SrcFile)
    (hb : batchesOf files = []) : iterOut bs (batchesOf files) = [] := by
  rw [hb]
  rfl

/-- Witness for C9 on a single empty file. -/
theorem c9_zero_batches_empty_output_witness :
    iterOut 1024 (batchesOf [⟨"empty.arrow", []⟩]) = [] :=
  c9_zero_batches_empty_output 1024 [⟨"empty.arrow", []⟩] rfl

/-- C10: on an empty file list the deduplicated suffix list is empty, so the
same assertion that rejects mixed formats fails (its length-one check reads
0 = 1), and get_ingester raises AssertionError instead of returning an
ingester; there is no dedicated empty-input error. -/
theorem c10_empty_files_assert (d : Bool) (c : Option (List String)) :
    get_ingester [] d c
      = Except.error (DispatchErr.assertionError "All files must be of the same type") := by
  simp [get_ingester]

end Quadfeather
